import Mathlib

/-!
Shallow embedding of the warp-transducer RNNT loss library.  The repository
ships the C interface header (src/include/rnnt.h); the computation engine
behind it is modelled from the specification, as noted on each definition.
Log-domain quantities are modelled over the real numbers (and over the
extended reals where the specification talks about minus infinity).
-/

namespace WarpRnnt

/-- Status codes, from rnnt.h (rnntStatus_t). -/
inductive RnntStatus where
  | RNNT_STATUS_SUCCESS
  | RNNT_STATUS_MEMOPS_FAILED
  | RNNT_STATUS_INVALID_VALUE
  | RNNT_STATUS_EXECUTION_FAILED
  | RNNT_STATUS_UNKNOWN_ERROR
deriving DecidableEq, Repr

/-- Compute location, from rnnt.h (rnntComputeLocation). -/
inductive RnntComputeLocation where
  | RNNT_CPU
  | RNNT_GPU
deriving DecidableEq, Repr

/-- Modelled from the spec: the options union of rnnt.h (num_threads for CPU,
stream for GPU), represented as the tagged variant prescribed in design note
section 9; the stream handle carries no observable data here. -/
inductive BackendPayload where
  | cpu (num_threads : ℕ)
  | gpu (stream : Unit)
deriving DecidableEq, Repr

/-- The compute location selected by a backend payload. -/
def BackendPayload.loc : BackendPayload → RnntComputeLocation
  | .cpu _ => .RNNT_CPU
  | .gpu _ => .RNNT_GPU

/-- Two-argument log-sum-exp over the reals: the log-domain addition used by
the DP recurrence. -/
noncomputable def logSumExp2 (x y : ℝ) : ℝ :=
  Real.log (Real.exp x + Real.exp y)

/-- Modelled from the spec: section 4.2 JointScoreEvaluator's log-normalization
(log-softmax) over an alphabet of size V; the evaluator implementation is
absent from src/. -/
noncomputable def log_softmax (V : ℕ) (f : ℕ → ℝ) (k : ℕ) : ℝ :=
  f k - Real.log (∑ v ∈ Finset.range V, Real.exp (f v))

/-- Modelled from the spec: section 4.3 ForwardEngine alpha recurrence (the
engine is absent from src/).  bs and ls are the per-cell blank- and
label-transition log-scores. -/
noncomputable def alpha (bs ls : ℕ → ℕ → ℝ) : ℕ → ℕ → ℝ
  | 0, 0 => 0
  | t + 1, 0 => alpha bs ls t 0 + bs t 0
  | 0, u + 1 => alpha bs ls 0 u + ls 0 u
  | t + 1, u + 1 =>
      logSumExp2 (alpha bs ls t (u + 1) + bs t (u + 1))
        (alpha bs ls (t + 1) u + ls (t + 1) u)

/-- Modelled from the spec: section 4.4 BackwardEngine beta recurrence, in
coordinates measured from the terminal cell (T1, U1) = (T_i - 1, U_i - 1):
betaAux bs ls T1 U1 i j is beta at lattice cell (T1 - i, U1 - j). -/
noncomputable def betaAux (bs ls : ℕ → ℕ → ℝ) (T1 U1 : ℕ) : ℕ → ℕ → ℝ
  | 0, 0 => bs T1 U1
  | i + 1, 0 => bs (T1 - (i + 1)) U1 + betaAux bs ls T1 U1 i 0
  | 0, j + 1 => ls T1 (U1 - (j + 1)) + betaAux bs ls T1 U1 0 j
  | i + 1, j + 1 =>
      logSumExp2 (bs (T1 - (i + 1)) (U1 - (j + 1)) + betaAux bs ls T1 U1 i (j + 1))
        (ls (T1 - (i + 1)) (U1 - (j + 1)) + betaAux bs ls T1 U1 (i + 1) j)

/-- Modelled from the spec: beta at lattice coordinates (t, u), for an example
whose terminal cell is (T1, U1). -/
noncomputable def beta (bs ls : ℕ → ℕ → ℝ) (T1 U1 t u : ℕ) : ℝ :=
  betaAux bs ls T1 U1 (T1 - t) (U1 - u)

/-- Exp-domain companion of alpha: the forward path-weight sum, with per-cell
blank weight b and label weight l. -/
noncomputable def Fwd (b l : ℕ → ℕ → ℝ) : ℕ → ℕ → ℝ
  | 0, 0 => 1
  | t + 1, 0 => Fwd b l t 0 * b t 0
  | 0, u + 1 => Fwd b l 0 u * l 0 u
  | t + 1, u + 1 =>
      Fwd b l t (u + 1) * b t (u + 1) + Fwd b l (t + 1) u * l (t + 1) u

/-- Exp-domain companion of betaAux: the backward path-weight sum, in
coordinates measured from the terminal cell (T1, U1). -/
noncomputable def Gaux (b l : ℕ → ℕ → ℝ) (T1 U1 : ℕ) : ℕ → ℕ → ℝ
  | 0, 0 => b T1 U1
  | i + 1, 0 => b (T1 - (i + 1)) U1 * Gaux b l T1 U1 i 0
  | 0, j + 1 => l T1 (U1 - (j + 1)) * Gaux b l T1 U1 0 j
  | i + 1, j + 1 =>
      b (T1 - (i + 1)) (U1 - (j + 1)) * Gaux b l T1 U1 i (j + 1) +
        l (T1 - (i + 1)) (U1 - (j + 1)) * Gaux b l T1 U1 (i + 1) j

/-- Exp-domain backward sum at lattice coordinates (t, u). -/
noncomputable def Gcell (b l : ℕ → ℕ → ℝ) (T1 U1 t u : ℕ) : ℝ :=
  Gaux b l T1 U1 (T1 - t) (U1 - u)

/-- Sum of Fwd times Gcell over the anti-diagonal t + u = d of the
(T1 + 1) by (U1 + 1) lattice. -/
noncomputable def Sdiag (b l : ℕ → ℕ → ℝ) (T1 U1 d : ℕ) : ℝ :=
  ∑ t ∈ Finset.range (T1 + 1), ∑ u ∈ Finset.range (U1 + 1),
    if t + u = d then Fwd b l t u * Gcell b l T1 U1 t u else 0

/-- The data of one example of a batch, as extracted by the per-example
pipeline: input length T, label length L (lattice label axis spans L + 1
positions), the label sequence, the two activation slices of this example's
batch index, alphabet size and blank index (spec section 3, Example). -/
structure ExampleData where
  T : ℕ
  L : ℕ
  labels : ℕ → ℕ
  trans : ℕ → ℕ → ℝ
  pred : ℕ → ℕ → ℝ
  V : ℕ
  blank : ℕ

/-- Modelled from the spec: section 4.2, the raw joint logit at lattice cell
(t, u) for symbol v: elementwise sum of the transcription and prediction
activation vectors. -/
noncomputable def rawJoint (e : ExampleData) (t u v : ℕ) : ℝ :=
  e.trans t v + e.pred u v

/-- Modelled from the spec: section 4.2, the blank-transition log-score at
cell (t, u): log-softmax-normalized joint score of the blank symbol. -/
noncomputable def blank_score (e : ExampleData) (t u : ℕ) : ℝ :=
  log_softmax e.V (rawJoint e t u) e.blank

/-- Modelled from the spec: section 4.2, the label-transition log-score at
cell (t, u): log-softmax-normalized joint score of the next ground-truth
label at this cell. -/
noncomputable def label_score (e : ExampleData) (t u : ℕ) : ℝ :=
  log_softmax e.V (rawJoint e t u) (e.labels u)

/-- The number of label-axis positions of an example's lattice: U = L + 1. -/
def exU (e : ExampleData) : ℕ := e.L + 1

/-- Modelled from the spec: section 4.5 CostExtractor, per-example loss
equals minus alpha at the terminal cell minus the terminal blank score. -/
noncomputable def example_cost (e : ExampleData) : ℝ :=
  -(alpha (blank_score e) (label_score e) (e.T - 1) (exU e - 1)) -
    blank_score e (e.T - 1) (exU e - 1)

/-- The total log-likelihood of an example (minus its cost). -/
noncomputable def example_loglike (e : ExampleData) : ℝ := -(example_cost e)

/-- Modelled from the spec: section 4.6, posterior occupancy probability of
the blank transition at cell (t, u). -/
noncomputable def occ_blank (e : ExampleData) (t u : ℕ) : ℝ :=
  Real.exp (alpha (blank_score e) (label_score e) t u +
    beta (blank_score e) (label_score e) (e.T - 1) (exU e - 1) (t + 1) u +
    blank_score e t u - example_loglike e)

/-- Modelled from the spec: section 4.6, posterior occupancy probability of
the label transition at cell (t, u). -/
noncomputable def occ_label (e : ExampleData) (t u : ℕ) : ℝ :=
  Real.exp (alpha (blank_score e) (label_score e) t u +
    beta (blank_score e) (label_score e) (e.T - 1) (exU e - 1) t (u + 1) +
    label_score e t u - example_loglike e)

/-- The normalized joint output (softmax probability) of symbol v at cell
(t, u): written from the spec's words for the normalized output value. -/
noncomputable def normalized_joint_prob (e : ExampleData) (t u v : ℕ) : ℝ :=
  Real.exp (rawJoint e t u v) / ∑ w ∈ Finset.range e.V, Real.exp (rawJoint e t u w)

/-- Modelled from the spec: section 4.6 GradientAccumulator, gradient
contribution of cell (t, u) to the raw activation entry of symbol v:
normalized output minus the occupancy of the transition v actually takes
there (softmax-minus-target structure). -/
noncomputable def cell_grad (e : ExampleData) (t u v : ℕ) : ℝ :=
  normalized_joint_prob e t u v -
    (if v = e.blank then occ_blank e t u else 0) -
    (if v = e.labels u then occ_label e t u else 0)

/-- Modelled from the spec: section 4.6, gradient slab of one example for the
transcription tensor; contributions from all cells (t, u) referencing time
index t accumulate additively. -/
noncomputable def example_trans_grad (e : ExampleData) (t v : ℕ) : ℝ :=
  if t < e.T then ∑ u ∈ Finset.range (exU e), cell_grad e t u v else 0

/-- Modelled from the spec: section 4.6, gradient slab of one example for the
prediction tensor; contributions from all cells (t, u) referencing label
index u accumulate additively. -/
noncomputable def example_pred_grad (e : ExampleData) (u v : ℕ) : ℝ :=
  if u < exU e then ∑ t ∈ Finset.range e.T, cell_grad e t u v else 0

/-- One call of compute_rnnt_loss, from rnnt.h: activation tensors are
functions of (time-or-label index, batch index, symbol); flat_labels is the
concatenation of all label sequences; lengths are per-example arrays; the
options fields are inlined (payload as the tagged variant). -/
structure RnntCall where
  minibatch : ℕ
  alphabet_size : ℕ
  blank_label : ℕ
  maxT : ℕ
  maxU : ℕ
  payload : BackendPayload
  trans_acts : ℕ → ℕ → ℕ → ℝ
  pred_acts : ℕ → ℕ → ℕ → ℝ
  flat_labels : ℕ → ℕ
  label_lengths : ℕ → ℕ
  input_lengths : ℕ → ℕ

/-- Modelled from the spec: section 9, offset of example b's labels in the
flattened concatenation, recovered by summing the lengths of the earlier
examples. -/
def labelOffset (c : RnntCall) (b : ℕ) : ℕ :=
  ∑ j ∈ Finset.range b, c.label_lengths j

/-- The per-example data extracted from a call for batch index b. -/
noncomputable def exampleData (c : RnntCall) (b : ℕ) : ExampleData where
  T := c.input_lengths b
  L := c.label_lengths b
  labels := fun u => c.flat_labels (labelOffset c b + u)
  trans := fun t v => c.trans_acts t b v
  pred := fun u v => c.pred_acts u b v
  V := c.alphabet_size
  blank := c.blank_label

/-- Modelled from the spec: section 4.7, the CPU thread budget must be at
least 1 (a value of 0 is invalid); the GPU payload carries no budget. -/
def threads_ok : BackendPayload → Bool
  | .cpu n => 1 ≤ n
  | .gpu _ => true

/-- Modelled from the spec: section 8, per-example length validation: no
input_length may exceed maxT and no label_length + 1 may exceed maxU. -/
def lengths_ok (c : RnntCall) : Bool :=
  decide (∀ b < c.minibatch,
    c.input_lengths b ≤ c.maxT ∧ c.label_lengths b + 1 ≤ c.maxU)

/-- Modelled from the spec: section 7 StatusReporter validation: positive
minibatch and alphabet, blank index in range, valid thread budget, and the
per-example length checks. -/
def valid_call (c : RnntCall) : Bool :=
  decide (0 < c.minibatch) && decide (0 < c.alphabet_size) &&
    decide (c.blank_label < c.alphabet_size) && threads_ok c.payload &&
    lengths_ok c

/-- The caller-visible outputs of one call: the status, the cost buffer and
the two optional gradient tensors (a tensor is a function of
(time-or-label index, batch index, symbol); a null pointer is none). -/
structure ComputeResult where
  status : RnntStatus
  costs : ℕ → ℝ
  trans_grad : Option (ℕ → ℕ → ℕ → ℝ)
  pred_grad : Option (ℕ → ℕ → ℕ → ℝ)

/-- Modelled from the spec: compute_rnnt_loss of rnnt.h (the engine is absent
from src/).  Validation runs first and, on failure, returns INVALID_VALUE
with every caller buffer unchanged; otherwise each example's pipeline writes
its one cost scalar, and its (·, b, ·) gradient slabs when the corresponding
gradient pointer is non-null. -/
noncomputable def compute_rnnt_loss (c : RnntCall)
    (trans_grad0 pred_grad0 : Option (ℕ → ℕ → ℕ → ℝ)) (costs0 : ℕ → ℝ) :
    ComputeResult :=
  if valid_call c then
    { status := .RNNT_STATUS_SUCCESS
      costs := fun b => if b < c.minibatch then example_cost (exampleData c b) else costs0 b
      trans_grad := trans_grad0.map (fun g0 => fun t b v =>
        if b < c.minibatch then example_trans_grad (exampleData c b) t v else g0 t b v)
      pred_grad := pred_grad0.map (fun g0 => fun u b v =>
        if b < c.minibatch then example_pred_grad (exampleData c b) u v else g0 u b v) }
  else
    { status := .RNNT_STATUS_INVALID_VALUE
      costs := costs0
      trans_grad := trans_grad0
      pred_grad := pred_grad0 }

/-- Bytes of one log-domain scalar (a C float). -/
def float_bytes : ℕ := 4

/-- Modelled from the spec: section 4.1 WorkspaceSizer backend-specific
scratch, in scalars per example: thread-local buffers for the CPU backend,
reduction and synchronization buffers for the GPU backend. -/
def backend_scratch (maxT maxU : ℕ) (gpu : Bool) : ℕ :=
  (if gpu then 2 else 1) * (maxT * maxU)

/-- Modelled from the spec: section 4.1 WorkspaceSizer byte count: per
example, an alpha table and a beta table of maxT * maxU scalars each, a
joint-score cache of maxT * maxU * V scalars (un-fused normalization), and
backend-specific scratch; a function only of the maximum dimensions and the
batch count. -/
def workspaceBytes (maxT maxU minibatch V : ℕ) (gpu : Bool) : ℕ :=
  float_bytes * minibatch *
    (2 * (maxT * maxU) + maxT * maxU * V + backend_scratch maxT maxU gpu)

/-- Modelled from the spec: get_workspace_size of rnnt.h: INVALID_VALUE (and
no write through size_bytes, modelled as none) when any dimension is
non-positive, otherwise SUCCESS with the computed byte count written. -/
def get_workspace_size (maxT maxU minibatch alphabet_size : ℤ) (gpu : Bool) :
    RnntStatus × Option ℕ :=
  if maxT ≤ 0 ∨ maxU ≤ 0 ∨ minibatch ≤ 0 ∨ alphabet_size ≤ 0 then
    (.RNNT_STATUS_INVALID_VALUE, none)
  else
    (.RNNT_STATUS_SUCCESS,
      some (workspaceBytes maxT.toNat maxU.toNat minibatch.toNat alphabet_size.toNat gpu))

/-- Modelled from the spec: sections 4.2 and 7, the guarded log-domain
addition over the extended reals: a logsumexp whose inputs are all minus
infinity yields minus infinity; otherwise the finite-input stable formula is
used on the surviving inputs. -/
noncomputable def log_sum_exp_safe (x y : EReal) : EReal :=
  if x = ⊥ ∧ y = ⊥ then ⊥
  else if x = ⊥ then y
  else if y = ⊥ then x
  else ((logSumExp2 x.toReal y.toReal : ℝ) : EReal)

/-- Modelled from the spec: section 7, the guarded log-domain subtraction
over the extended reals: minus infinity minus minus infinity (two
unreachable cells) resolves to minus infinity. -/
noncomputable def log_sub_safe (x y : EReal) : EReal :=
  if x = ⊥ ∧ y = ⊥ then ⊥ else x - y

/-- A constant-zero activation tensor, used to instantiate the model at
concrete inputs. -/
noncomputable def const_acts : ℕ → ℕ → ℕ → ℝ := fun _ _ _ => 0

/-- A concrete single-example call: alphabet of size 2, blank 0, one time
step, empty label sequence. -/
noncomputable def demo_call : RnntCall where
  minibatch := 1
  alphabet_size := 2
  blank_label := 0
  maxT := 1
  maxU := 1
  payload := .cpu 1
  trans_acts := const_acts
  pred_acts := const_acts
  flat_labels := fun _ => 1
  label_lengths := fun _ => 0
  input_lengths := fun _ => 1

/-- The worked scenario of spec section 8: alphabet of size 3 with blank 0,
maxT = 2, maxU = 2, a single example with input_length 2 and label sequence
consisting of the single symbol 1, over arbitrary activation logits. -/
noncomputable def scenario_call (ta pa : ℕ → ℕ → ℕ → ℝ) : RnntCall where
  minibatch := 1
  alphabet_size := 3
  blank_label := 0
  maxT := 2
  maxU := 2
  payload := .cpu 1
  trans_acts := ta
  pred_acts := pa
  flat_labels := fun _ => 1
  label_lengths := fun _ => 1
  input_lengths := fun _ => 2

/-- A concrete call violating the length validation: its example has
input_length 2 while maxT is 1. -/
noncomputable def bad_len_call : RnntCall where
  minibatch := 1
  alphabet_size := 2
  blank_label := 0
  maxT := 1
  maxU := 1
  payload := .cpu 1
  trans_acts := const_acts
  pred_acts := const_acts
  flat_labels := fun _ => 1
  label_lengths := fun _ => 0
  input_lengths := fun _ => 2

/-- A concrete CPU call whose thread budget is 0. -/
noncomputable def cpu0_call : RnntCall where
  minibatch := 1
  alphabet_size := 2
  blank_label := 0
  maxT := 1
  maxU := 1
  payload := .cpu 0
  trans_acts := const_acts
  pred_acts := const_acts
  flat_labels := fun _ => 1
  label_lengths := fun _ => 0
  input_lengths := fun _ => 1

/-- The brute-force path sum of the worked scenario: the two valid monotonic
alignment paths through the 2 by 2 lattice, each weighted by the product of
the log-softmax-normalized transition probabilities along it (label then
blank then terminal blank, and blank then label then terminal blank). -/
noncomputable def scenario_path_sum (e : ExampleData) : ℝ :=
  Real.exp (label_score e 0 0) * Real.exp (blank_score e 0 1) *
      Real.exp (blank_score e 1 1) +
    Real.exp (blank_score e 0 0) * Real.exp (label_score e 1 0) *
      Real.exp (blank_score e 1 1)

/-! ### Basic recurrence lemmas -/

theorem alpha_zero_zero (bs ls : ℕ → ℕ → ℝ) : alpha bs ls 0 0 = 0 := by
  simp [alpha]

theorem alpha_succ_zero (bs ls : ℕ → ℕ → ℝ) (t : ℕ) :
    alpha bs ls (t + 1) 0 = alpha bs ls t 0 + bs t 0 := by
  simp [alpha]

theorem alpha_zero_succ (bs ls : ℕ → ℕ → ℝ) (u : ℕ) :
    alpha bs ls 0 (u + 1) = alpha bs ls 0 u + ls 0 u := by
  simp [alpha]

theorem alpha_succ_succ (bs ls : ℕ → ℕ → ℝ) (t u : ℕ) :
    alpha bs ls (t + 1) (u + 1) =
      logSumExp2 (alpha bs ls t (u + 1) + bs t (u + 1))
        (alpha bs ls (t + 1) u + ls (t + 1) u) := by
  rw [alpha]

/-! ### Claim theorems: validation and simple structure -/

/-- C3: for every valid call and every example, the forward table satisfies
alpha(0,0) = 0, the blank-only recurrence along the u = 0 edge, the
label-only recurrence along the t = 0 edge, and the logsumexp recurrence at
every interior cell. -/
theorem alpha_recurrence_spec (c : RnntCall) (hv : valid_call c = true)
    (i : ℕ) (hi : i < c.minibatch) :
    alpha (blank_score (exampleData c i)) (label_score (exampleData c i)) 0 0 = 0 ∧
    (∀ t, 0 < t →
      alpha (blank_score (exampleData c i)) (label_score (exampleData c i)) t 0 =
        alpha (blank_score (exampleData c i)) (label_score (exampleData c i)) (t - 1) 0 +
          blank_score (exampleData c i) (t - 1) 0) ∧
    (∀ u, 0 < u →
      alpha (blank_score (exampleData c i)) (label_score (exampleData c i)) 0 u =
        alpha (blank_score (exampleData c i)) (label_score (exampleData c i)) 0 (u - 1) +
          label_score (exampleData c i) 0 (u - 1)) ∧
    (∀ t u, 0 < t → 0 < u →
      alpha (blank_score (exampleData c i)) (label_score (exampleData c i)) t u =
        logSumExp2
          (alpha (blank_score (exampleData c i)) (label_score (exampleData c i)) (t - 1) u +
            blank_score (exampleData c i) (t - 1) u)
          (alpha (blank_score (exampleData c i)) (label_score (exampleData c i)) t (u - 1) +
            label_score (exampleData c i) t (u - 1))) := by
  refine ⟨alpha_zero_zero _ _, ?_, ?_, ?_⟩
  · intro t ht
    cases t with
    | zero => omega
    | succ k => simpa using alpha_succ_zero _ _ k
  · intro u hu
    cases u with
    | zero => omega
    | succ k => simpa using alpha_zero_succ _ _ k
  · intro t u ht hu
    cases t with
    | zero => omega
    | succ k =>
      cases u with
      | zero => omega
      | succ m => simpa using alpha_succ_succ _ _ k m

/-- Witness for C3 at the concrete demo call. -/
theorem alpha_recurrence_spec_witness :
    alpha (blank_score (exampleData demo_call 0)) (label_score (exampleData demo_call 0))
        1 1 =
      logSumExp2
        (alpha (blank_score (exampleData demo_call 0)) (label_score (exampleData demo_call 0))
            0 1 + blank_score (exampleData demo_call 0) 0 1)
        (alpha (blank_score (exampleData demo_call 0)) (label_score (exampleData demo_call 0))
            1 0 + label_score (exampleData demo_call 0) 1 0) :=
  (alpha_recurrence_spec demo_call rfl 0 Nat.one_pos).2.2.2 1 1 Nat.one_pos Nat.one_pos

/-- C5: a call in which some example's input_length exceeds maxT, or some
example's label_length + 1 exceeds maxU, returns INVALID_VALUE and leaves
the cost buffer and both gradient tensors unchanged. -/
theorem length_validation_aborts (c : RnntCall)
    (tg pg : Option (ℕ → ℕ → ℕ → ℝ)) (costs0 : ℕ → ℝ) (b : ℕ)
    (hb : b < c.minibatch)
    (hbad : c.maxT < c.input_lengths b ∨ c.maxU < c.label_lengths b + 1) :
    compute_rnnt_loss c tg pg costs0 =
      { status := .RNNT_STATUS_INVALID_VALUE
        costs := costs0
        trans_grad := tg
        pred_grad := pg } := by
  have hval : ¬ (valid_call c = true) := by
    intro h
    simp only [valid_call, lengths_ok, Bool.and_eq_true, decide_eq_true_eq] at h
    obtain ⟨-, hlen⟩ := h
    obtain ⟨h1, h2⟩ := hlen b hb
    omega
  simp [compute_rnnt_loss, hval]

/-- Witness for C5 at a concrete over-long call. -/
theorem length_validation_aborts_witness :
    compute_rnnt_loss bad_len_call none none (fun _ => 0) =
      { status := .RNNT_STATUS_INVALID_VALUE
        costs := fun _ => 0
        trans_grad := none
        pred_grad := none } :=
  length_validation_aborts bad_len_call none none (fun _ => 0) 0 Nat.one_pos
    (Or.inl (by norm_num [bad_len_call]))

/-- C10: a CPU call whose thread budget is 0 fails with INVALID_VALUE and
leaves every caller buffer unchanged. -/
theorem cpu_zero_threads_invalid (c : RnntCall)
    (tg pg : Option (ℕ → ℕ → ℕ → ℝ)) (costs0 : ℕ → ℝ)
    (hcpu : c.payload = .cpu 0) :
    compute_rnnt_loss c tg pg costs0 =
      { status := .RNNT_STATUS_INVALID_VALUE
        costs := costs0
        trans_grad := tg
        pred_grad := pg } := by
  have hval : ¬ (valid_call c = true) := by
    intro h
    simp only [valid_call, Bool.and_eq_true] at h
    obtain ⟨⟨-, hth⟩, -⟩ := h
    rw [hcpu] at hth
    simp [threads_ok] at hth
  simp [compute_rnnt_loss, hval]

/-- Witness for C10 at a concrete zero-thread CPU call. -/
theorem cpu_zero_threads_invalid_witness :
    compute_rnnt_loss cpu0_call none none (fun _ => 0) =
      { status := .RNNT_STATUS_INVALID_VALUE
        costs := fun _ => 0
        trans_grad := none
        pred_grad := none } :=
  cpu_zero_threads_invalid cpu0_call none none (fun _ => 0) rfl

/-- C7: get_workspace_size returns INVALID_VALUE (writing nothing) whenever
some dimension is non-positive, and SUCCESS with a written byte count
otherwise. -/
theorem workspace_size_status (maxT maxU minibatch alphabet_size : ℤ) (gpu : Bool) :
    ((maxT ≤ 0 ∨ maxU ≤ 0 ∨ minibatch ≤ 0 ∨ alphabet_size ≤ 0) →
      get_workspace_size maxT maxU minibatch alphabet_size gpu =
        (.RNNT_STATUS_INVALID_VALUE, none)) ∧
    (0 < maxT → 0 < maxU → 0 < minibatch → 0 < alphabet_size →
      get_workspace_size maxT maxU minibatch alphabet_size gpu =
        (.RNNT_STATUS_SUCCESS,
          some (workspaceBytes maxT.toNat maxU.toNat minibatch.toNat
            alphabet_size.toNat gpu))) := by
  constructor
  · intro h
    simp [get_workspace_size, h]
  · intro h1 h2 h3 h4
    rw [get_workspace_size, if_neg (by omega)]

/-- Witness for C7 at concrete dimensions. -/
theorem workspace_size_status_witness :
    get_workspace_size 0 1 1 1 true = (.RNNT_STATUS_INVALID_VALUE, none) ∧
    get_workspace_size 2 3 4 5 false =
      (.RNNT_STATUS_SUCCESS,
        some (workspaceBytes (2 : ℤ).toNat (3 : ℤ).toNat (4 : ℤ).toNat
          (5 : ℤ).toNat false)) :=
  ⟨(workspace_size_status 0 1 1 1 true).1 (Or.inl le_rfl),
    (workspace_size_status 2 3 4 5 false).2 (by norm_num) (by norm_num) (by norm_num)
      (by norm_num)⟩

/-- C8: the guarded log-domain operations are total over the extended reals:
logsumexp of all-bottom inputs is bottom, bottom minus bottom resolves to
bottom, and logsumexp yields bottom exactly on all-bottom inputs (on every
other input it produces a genuine extended-real value, never an undefined
one). -/
theorem log_domain_guards_total :
    log_sum_exp_safe ⊥ ⊥ = ⊥ ∧ log_sub_safe ⊥ ⊥ = ⊥ ∧
    ∀ x y : EReal, (log_sum_exp_safe x y = ⊥ ↔ x = ⊥ ∧ y = ⊥) := by
  refine ⟨by simp [log_sum_exp_safe], by simp [log_sub_safe], ?_⟩
  intro x y
  by_cases hx : x = ⊥ <;> by_cases hy : y = ⊥ <;>
    simp [log_sum_exp_safe, hx, hy]

theorem workspaceBytes_mono (g : Bool) (mT mT' mU mU' mb mb' V V' : ℕ)
    (h1 : mT ≤ mT') (h2 : mU ≤ mU') (h3 : mb ≤ mb') (h4 : V ≤ V') :
    workspaceBytes mT mU mb V g ≤ workspaceBytes mT' mU' mb' V' g := by
  unfold workspaceBytes backend_scratch
  gcongr

/-- C6: the workspace size reported by get_workspace_size is monotonically
non-decreasing in each of maxT, maxU, minibatch and alphabet_size
independently, for both backend settings. -/
theorem workspace_size_monotone :
    (∀ (g : Bool) (mT mT' mU mb V : ℤ), 0 < mT → mT ≤ mT' → 0 < mU → 0 < mb → 0 < V →
      ∃ s s', get_workspace_size mT mU mb V g = (.RNNT_STATUS_SUCCESS, some s) ∧
        get_workspace_size mT' mU mb V g = (.RNNT_STATUS_SUCCESS, some s') ∧ s ≤ s') ∧
    (∀ (g : Bool) (mT mU mU' mb V : ℤ), 0 < mT → 0 < mU → mU ≤ mU' → 0 < mb → 0 < V →
      ∃ s s', get_workspace_size mT mU mb V g = (.RNNT_STATUS_SUCCESS, some s) ∧
        get_workspace_size mT mU' mb V g = (.RNNT_STATUS_SUCCESS, some s') ∧ s ≤ s') ∧
    (∀ (g : Bool) (mT mU mb mb' V : ℤ), 0 < mT → 0 < mU → 0 < mb → mb ≤ mb' → 0 < V →
      ∃ s s', get_workspace_size mT mU mb V g = (.RNNT_STATUS_SUCCESS, some s) ∧
        get_workspace_size mT mU mb' V g = (.RNNT_STATUS_SUCCESS, some s') ∧ s ≤ s') ∧
    (∀ (g : Bool) (mT mU mb V V' : ℤ), 0 < mT → 0 < mU → 0 < mb → 0 < V → V ≤ V' →
      ∃ s s', get_workspace_size mT mU mb V g = (.RNNT_STATUS_SUCCESS, some s) ∧
        get_workspace_size mT mU mb V' g = (.RNNT_STATUS_SUCCESS, some s') ∧ s ≤ s') := by
  refine ⟨?_, ?_, ?_, ?_⟩
  · intro g mT mT' mU mb V h1 hle h2 h3 h4
    refine ⟨workspaceBytes mT.toNat mU.toNat mb.toNat V.toNat g,
      workspaceBytes mT'.toNat mU.toNat mb.toNat V.toNat g, ?_, ?_, ?_⟩
    · rw [get_workspace_size, if_neg (by omega)]
    · rw [get_workspace_size, if_neg (by omega)]
    · exact workspaceBytes_mono g _ _ _ _ _ _ _ _ (Int.toNat_le_toNat hle) le_rfl le_rfl le_rfl
  · intro g mT mU mU' mb V h1 h2 hle h3 h4
    refine ⟨workspaceBytes mT.toNat mU.toNat mb.toNat V.toNat g,
      workspaceBytes mT.toNat mU'.toNat mb.toNat V.toNat g, ?_, ?_, ?_⟩
    · rw [get_workspace_size, if_neg (by omega)]
    · rw [get_workspace_size, if_neg (by omega)]
    · exact workspaceBytes_mono g _ _ _ _ _ _ _ _ le_rfl (Int.toNat_le_toNat hle) le_rfl le_rfl
  · intro g mT mU mb mb' V h1 h2 h3 hle h4
    refine ⟨workspaceBytes mT.toNat mU.toNat mb.toNat V.toNat g,
      workspaceBytes mT.toNat mU.toNat mb'.toNat V.toNat g, ?_, ?_, ?_⟩
    · rw [get_workspace_size, if_neg (by omega)]
    · rw [get_workspace_size, if_neg (by omega)]
    · exact workspaceBytes_mono g _ _ _ _ _ _ _ _ le_rfl le_rfl (Int.toNat_le_toNat hle) le_rfl
  · intro g mT mU mb V V' h1 h2 h3 h4 hle
    refine ⟨workspaceBytes mT.toNat mU.toNat mb.toNat V.toNat g,
      workspaceBytes mT.toNat mU.toNat mb.toNat V'.toNat g, ?_, ?_, ?_⟩
    · rw [get_workspace_size, if_neg (by omega)]
    · rw [get_workspace_size, if_neg (by omega)]
    · exact workspaceBytes_mono g _ _ _ _ _ _ _ _ le_rfl le_rfl le_rfl (Int.toNat_le_toNat hle)

/-- Witness for C6: increasing maxT from 1 to 2 at fixed other dimensions. -/
theorem workspace_size_monotone_witness :
    ∃ s s', get_workspace_size 1 1 1 1 false = (.RNNT_STATUS_SUCCESS, some s) ∧
      get_workspace_size 2 1 1 1 false = (.RNNT_STATUS_SUCCESS, some s') ∧ s ≤ s' :=
  workspace_size_monotone.1 false 1 2 1 1 1 Int.one_pos (by norm_num) Int.one_pos
    Int.one_pos Int.one_pos

/-- C9: on a valid call, a gradient tensor is written only when its pointer
is non-null (a null pointer stays untouched while the costs are still
computed and written), and when it is non-null, the (·, b, ·) slab written
for batch index b is the per-example gradient of example b alone. -/
theorem gradient_frame_effects (c : RnntCall)
    (tg pg : Option (ℕ → ℕ → ℕ → ℝ)) (costs0 : ℕ → ℝ)
    (hv : valid_call c = true) :
    (tg = none → (compute_rnnt_loss c tg pg costs0).trans_grad = none) ∧
    (pg = none → (compute_rnnt_loss c tg pg costs0).pred_grad = none) ∧
    ((compute_rnnt_loss c tg pg costs0).costs =
      fun b => if b < c.minibatch then example_cost (exampleData c b) else costs0 b) ∧
    (∀ g0, tg = some g0 →
      (compute_rnnt_loss c tg pg costs0).trans_grad =
        some (fun t b v =>
          if b < c.minibatch then example_trans_grad (exampleData c b) t v
          else g0 t b v)) ∧
    (∀ g0, pg = some g0 →
      (compute_rnnt_loss c tg pg costs0).pred_grad =
        some (fun u b v =>
          if b < c.minibatch then example_pred_grad (exampleData c b) u v
          else g0 u b v)) := by
  refine ⟨?_, ?_, ?_, ?_, ?_⟩
  · intro h
    subst h
    simp [compute_rnnt_loss, hv]
  · intro h
    subst h
    simp [compute_rnnt_loss, hv]
  · simp [compute_rnnt_loss, hv]
  · intro g0 h
    subst h
    simp [compute_rnnt_loss, hv, Option.map]
  · intro g0 h
    subst h
    simp [compute_rnnt_loss, hv, Option.map]

/-- Witness for C9 at the demo call with a non-null transcription gradient
pointer and a null prediction gradient pointer. -/
theorem gradient_frame_effects_witness :
    (compute_rnnt_loss demo_call (some const_acts) none (fun _ => 0)).pred_grad = none ∧
    (compute_rnnt_loss demo_call (some const_acts) none (fun _ => 0)).trans_grad =
      some (fun t b v =>
        if b < demo_call.minibatch then example_trans_grad (exampleData demo_call b) t v
        else const_acts t b v) :=
  ⟨(gradient_frame_effects demo_call (some const_acts) none (fun _ => 0) rfl).2.1 rfl,
    (gradient_frame_effects demo_call (some const_acts) none (fun _ => 0) rfl).2.2.2.1
      const_acts rfl⟩

/-- C4: for a valid single-example batch with one time step and an empty
label sequence, the returned loss is the negative log of the normalized
joint probability of the blank symbol at the sole lattice cell (0, 0). -/
theorem single_cell_blank_loss (c : RnntCall)
    (tg pg : Option (ℕ → ℕ → ℕ → ℝ)) (costs0 : ℕ → ℝ)
    (hv : valid_call c = true) (hmb : c.minibatch = 1)
    (hT : c.input_lengths 0 = 1) (hL : c.label_lengths 0 = 0) :
    (compute_rnnt_loss c tg pg costs0).costs 0 =
      -Real.log (normalized_joint_prob (exampleData c 0) 0 0 c.blank_label) := by
  have hVpos : 0 < c.alphabet_size := by
    simp only [valid_call, Bool.and_eq_true, decide_eq_true_eq] at hv
    tauto
  have hcost : (compute_rnnt_loss c tg pg costs0).costs 0 =
      example_cost (exampleData c 0) := by
    simp [compute_rnnt_loss, hv, hmb]
  rw [hcost]
  have hsum : 0 < ∑ w ∈ Finset.range (exampleData c 0).V,
      Real.exp (rawJoint (exampleData c 0) 0 0 w) := by
    refine Finset.sum_pos (fun i _ => Real.exp_pos _) ?_
    refine Finset.nonempty_range_iff.mpr ?_
    show c.alphabet_size ≠ 0
    omega
  have h1 : (exampleData c 0).T - 1 = 0 := by
    show c.input_lengths 0 - 1 = 0
    omega
  have h2 : exU (exampleData c 0) - 1 = 0 := by
    show c.label_lengths 0 + 1 - 1 = 0
    omega
  have hbl : (exampleData c 0).blank = c.blank_label := rfl
  rw [example_cost, h1, h2, alpha_zero_zero, blank_score, log_softmax, hbl,
    normalized_joint_prob, Real.log_div (Real.exp_ne_zero _) (ne_of_gt hsum),
    Real.log_exp]
  ring

/-- Witness for C4 at the demo call. -/
theorem single_cell_blank_loss_witness :
    (compute_rnnt_loss demo_call none none (fun _ => 0)).costs 0 =
      -Real.log (normalized_joint_prob (exampleData demo_call 0) 0 0
        demo_call.blank_label) :=
  single_cell_blank_loss demo_call none none (fun _ => 0) rfl rfl rfl rfl

/-! ### Exp-domain forward and backward recurrences -/

theorem exp_logSumExp2 (x y : ℝ) :
    Real.exp (logSumExp2 x y) = Real.exp x + Real.exp y := by
  rw [logSumExp2, Real.exp_log (by positivity)]

theorem Fwd_zero_zero (b l : ℕ → ℕ → ℝ) : Fwd b l 0 0 = 1 := by
  simp [Fwd]

theorem Fwd_succ_succ (b l : ℕ → ℕ → ℝ) (t u : ℕ) :
    Fwd b l (t + 1) (u + 1) =
      Fwd b l t (u + 1) * b t (u + 1) + Fwd b l (t + 1) u * l (t + 1) u := by
  rw [Fwd]

theorem exp_alpha (bs ls : ℕ → ℕ → ℝ) : ∀ t u,
    Real.exp (alpha bs ls t u) =
      Fwd (fun a c => Real.exp (bs a c)) (fun a c => Real.exp (ls a c)) t u := by
  intro t u
  induction t, u using alpha.induct bs ls with
  | case1 => simp [alpha, Fwd]
  | case2 t ih => rw [alpha, Real.exp_add, ih]; rw [Fwd]
  | case3 u ih => rw [alpha, Real.exp_add, ih]; rw [Fwd]
  | case4 t u ih1 ih2 =>
      rw [alpha, exp_logSumExp2, Real.exp_add, Real.exp_add, ih1, ih2]; rw [Fwd]

theorem exp_betaAux (bs ls : ℕ → ℕ → ℝ) (T1 U1 : ℕ) : ∀ i j,
    Real.exp (betaAux bs ls T1 U1 i j) =
      Gaux (fun a c => Real.exp (bs a c)) (fun a c => Real.exp (ls a c)) T1 U1 i j := by
  intro i j
  induction i, j using betaAux.induct bs ls T1 U1 with
  | case1 => simp [betaAux, Gaux]
  | case2 i ih => rw [betaAux, Real.exp_add, ih]; rw [Gaux]
  | case3 j ih => rw [betaAux, Real.exp_add, ih]; rw [Gaux]
  | case4 i j ih1 ih2 =>
      rw [betaAux, exp_logSumExp2, Real.exp_add, Real.exp_add, ih1, ih2]; rw [Gaux]

/-- Unified forward recurrence away from the origin: predecessors outside
the lattice contribute nothing. -/
theorem Fwd_unified (b l : ℕ → ℕ → ℝ) (t u : ℕ) (h : ¬(t = 0 ∧ u = 0)) :
    Fwd b l t u =
      (if 0 < t then Fwd b l (t - 1) u * b (t - 1) u else 0) +
        (if 0 < u then Fwd b l t (u - 1) * l t (u - 1) else 0) := by
  match t, u with
  | 0, 0 => exact absurd ⟨rfl, rfl⟩ h
  | t + 1, 0 => simp [Fwd]
  | 0, u + 1 => simp [Fwd]
  | t + 1, u + 1 => rw [Fwd_succ_succ]; simp

/-- Unified backward recurrence away from the terminal cell: successors
outside the lattice contribute nothing. -/
theorem Gcell_unified (b l : ℕ → ℕ → ℝ) (T1 U1 t u : ℕ) (ht : t ≤ T1) (hu : u ≤ U1)
    (h : ¬(t = T1 ∧ u = U1)) :
    Gcell b l T1 U1 t u =
      (if t < T1 then b t u * Gcell b l T1 U1 (t + 1) u else 0) +
        (if u < U1 then l t u * Gcell b l T1 U1 t (u + 1) else 0) := by
  rcases Nat.lt_or_ge t T1 with ht' | ht'
  · rcases Nat.lt_or_ge u U1 with hu' | hu'
    · obtain ⟨i, hi⟩ : ∃ i, T1 - t = i + 1 := ⟨T1 - t - 1, by omega⟩
      obtain ⟨j, hj⟩ : ∃ j, U1 - u = j + 1 := ⟨U1 - u - 1, by omega⟩
      have e1 : T1 - (i + 1) = t := by omega
      have e2 : U1 - (j + 1) = u := by omega
      have e3 : T1 - (t + 1) = i := by omega
      have e4 : U1 - (u + 1) = j := by omega
      have hg1 : Gcell b l T1 U1 (t + 1) u = Gaux b l T1 U1 i (j + 1) := by
        rw [Gcell, e3, hj]
      have hg2 : Gcell b l T1 U1 t (u + 1) = Gaux b l T1 U1 (i + 1) j := by
        rw [Gcell, hi, e4]
      rw [Gcell, hi, hj, Gaux, e1, e2, ← hg1, ← hg2, if_pos ht', if_pos hu']
    · have huU : u = U1 := le_antisymm hu hu'
      rw [huU]
      obtain ⟨i, hi⟩ : ∃ i, T1 - t = i + 1 := ⟨T1 - t - 1, by omega⟩
      have e1 : T1 - (i + 1) = t := by omega
      have hg1 : Gcell b l T1 U1 (t + 1) U1 = Gaux b l T1 U1 i 0 := by
        rw [Gcell, Nat.sub_self]
        congr 1
        omega
      rw [Gcell, hi, Nat.sub_self, Gaux, e1, ← hg1, if_pos ht', if_neg (lt_irrefl U1),
        add_zero]
  · have htT : t = T1 := le_antisymm ht ht'
    rw [htT]
    rcases Nat.lt_or_ge u U1 with hu' | hu'
    · obtain ⟨j, hj⟩ : ∃ j, U1 - u = j + 1 := ⟨U1 - u - 1, by omega⟩
      have e2 : U1 - (j + 1) = u := by omega
      have hg2 : Gcell b l T1 U1 T1 (u + 1) = Gaux b l T1 U1 0 j := by
        rw [Gcell, Nat.sub_self]
        congr 1
        omega
      rw [Gcell, Nat.sub_self, hj, Gaux, e2, ← hg2, if_neg (lt_irrefl T1), if_pos hu',
        zero_add]
    · exact absurd ⟨htT, le_antisymm hu hu'⟩ h

theorem Gcell_terminal (b l : ℕ → ℕ → ℝ) (T1 U1 : ℕ) :
    Gcell b l T1 U1 T1 U1 = b T1 U1 := by
  rw [Gcell, Nat.sub_self, Nat.sub_self]
  simp [Gaux]

/-! ### The diagonal invariant -/

theorem Sdiag_zero (b l : ℕ → ℕ → ℝ) (T1 U1 : ℕ) :
    Sdiag b l T1 U1 0 = Gcell b l T1 U1 0 0 := by
  rw [Sdiag]
  rw [Finset.sum_eq_single_of_mem 0 (Finset.mem_range.mpr (Nat.succ_pos T1))]
  · rw [Finset.sum_eq_single_of_mem 0 (Finset.mem_range.mpr (Nat.succ_pos U1))]
    · rw [if_pos rfl, Fwd_zero_zero, one_mul]
    · intro u hu hne
      exact if_neg (by omega)
  · intro t ht hne
    exact Finset.sum_eq_zero (fun u hu => if_neg (by omega))

theorem Sdiag_last (b l : ℕ → ℕ → ℝ) (T1 U1 : ℕ) :
    Sdiag b l T1 U1 (T1 + U1) = Fwd b l T1 U1 * b T1 U1 := by
  rw [Sdiag]
  rw [Finset.sum_eq_single_of_mem T1 (Finset.mem_range.mpr (Nat.lt_succ_self T1))]
  · rw [Finset.sum_eq_single_of_mem U1 (Finset.mem_range.mpr (Nat.lt_succ_self U1))]
    · rw [if_pos rfl, Gcell_terminal]
    · intro u hu hne
      exact if_neg (by omega)
  · intro t ht hne
    refine Finset.sum_eq_zero (fun u hu => if_neg ?_)
    simp only [Finset.mem_range] at ht hu
    omega

/-- Reindexing of a guarded double sum along the first coordinate: stepping
the diagonal from d to d + 1 turns cells with a blank successor into cells
with a blank predecessor. -/
theorem sum_reindex_t (n m d : ℕ) (f g : ℕ → ℕ → ℝ)
    (h : ∀ t u, t < n → t + u = d → g (t + 1) u = f t u) :
    (∑ t ∈ Finset.range (n + 1), ∑ u ∈ Finset.range m,
      if t + u = d ∧ t < n then f t u else 0) =
    (∑ t ∈ Finset.range (n + 1), ∑ u ∈ Finset.range m,
      if t + u = d + 1 ∧ 0 < t then g t u else 0) := by
  rw [Finset.sum_range_succ,
    Finset.sum_eq_zero (fun u _ => if_neg (fun hc => lt_irrefl n hc.2)), add_zero]
  rw [Finset.sum_range_succ',
    Finset.sum_eq_zero (fun u _ => if_neg (fun hc => lt_irrefl 0 hc.2)), add_zero]
  refine Finset.sum_congr rfl (fun t ht => Finset.sum_congr rfl (fun u hu => ?_))
  simp only [Finset.mem_range] at ht hu
  by_cases hc : t + u = d
  · rw [if_pos ⟨hc, ht⟩, if_pos ⟨by omega, Nat.succ_pos t⟩, h t u ht hc]
  · rw [if_neg (fun hx => hc hx.1), if_neg (by omega)]

/-- Reindexing of a guarded double sum along the second coordinate: stepping
the diagonal from d to d + 1 turns cells with a label successor into cells
with a label predecessor. -/
theorem sum_reindex_u (n m d : ℕ) (f g : ℕ → ℕ → ℝ)
    (h : ∀ t u, u < m → t + u = d → g t (u + 1) = f t u) :
    (∑ t ∈ Finset.range n, ∑ u ∈ Finset.range (m + 1),
      if t + u = d ∧ u < m then f t u else 0) =
    (∑ t ∈ Finset.range n, ∑ u ∈ Finset.range (m + 1),
      if t + u = d + 1 ∧ 0 < u then g t u else 0) := by
  refine Finset.sum_congr rfl (fun t _ => ?_)
  rw [Finset.sum_range_succ, if_neg (fun hc => lt_irrefl m hc.2), add_zero]
  rw [Finset.sum_range_succ', if_neg (fun hc => lt_irrefl 0 hc.2), add_zero]
  refine Finset.sum_congr rfl (fun u hu => ?_)
  simp only [Finset.mem_range] at hu
  by_cases hc : t + u = d
  · rw [if_pos ⟨hc, hu⟩, if_pos ⟨by omega, Nat.succ_pos u⟩, h t u hu hc]
  · rw [if_neg (fun hx => hc hx.1), if_neg (by omega)]

theorem Sdiag_step (b l : ℕ → ℕ → ℝ) (T1 U1 d : ℕ) (hd : d < T1 + U1) :
    Sdiag b l T1 U1 d = Sdiag b l T1 U1 (d + 1) := by
  have key1 : ∀ t ∈ Finset.range (T1 + 1), ∀ u ∈ Finset.range (U1 + 1),
      (if t + u = d then Fwd b l t u * Gcell b l T1 U1 t u else 0) =
        (if t + u = d ∧ t < T1 then
          Fwd b l t u * b t u * Gcell b l T1 U1 (t + 1) u else 0) +
          (if t + u = d ∧ u < U1 then
            Fwd b l t u * l t u * Gcell b l T1 U1 t (u + 1) else 0) := by
    intro t ht u hu
    simp only [Finset.mem_range] at ht hu
    by_cases hc : t + u = d
    · rw [if_pos hc, Gcell_unified b l T1 U1 t u (by omega) (by omega) (by omega)]
      by_cases h1 : t < T1 <;> by_cases h2 : u < U1 <;>
        simp [h1, h2, hc, mul_add, mul_assoc]
    · rw [if_neg hc, if_neg (fun hx => hc hx.1), if_neg (fun hx => hc hx.1), add_zero]
  have key2 : ∀ t ∈ Finset.range (T1 + 1), ∀ u ∈ Finset.range (U1 + 1),
      (if t + u = d + 1 then Fwd b l t u * Gcell b l T1 U1 t u else 0) =
        (if t + u = d + 1 ∧ 0 < t then
          Fwd b l (t - 1) u * b (t - 1) u * Gcell b l T1 U1 t u else 0) +
          (if t + u = d + 1 ∧ 0 < u then
            Fwd b l t (u - 1) * l t (u - 1) * Gcell b l T1 U1 t u else 0) := by
    intro t ht u hu
    by_cases hc : t + u = d + 1
    · rw [if_pos hc, Fwd_unified b l t u (by omega)]
      by_cases h1 : 0 < t <;> by_cases h2 : 0 < u <;>
        simp [h1, h2, hc, add_mul, mul_assoc]
    · rw [if_neg hc, if_neg (fun hx => hc hx.1), if_neg (fun hx => hc hx.1), add_zero]
  calc Sdiag b l T1 U1 d
      = (∑ t ∈ Finset.range (T1 + 1), ∑ u ∈ Finset.range (U1 + 1),
          (if t + u = d ∧ t < T1 then
            Fwd b l t u * b t u * Gcell b l T1 U1 (t + 1) u else 0)) +
        (∑ t ∈ Finset.range (T1 + 1), ∑ u ∈ Finset.range (U1 + 1),
          (if t + u = d ∧ u < U1 then
            Fwd b l t u * l t u * Gcell b l T1 U1 t (u + 1) else 0)) := by
        rw [Sdiag, ← Finset.sum_add_distrib]
        refine Finset.sum_congr rfl (fun t ht => ?_)
        rw [← Finset.sum_add_distrib]
        exact Finset.sum_congr rfl (fun u hu => key1 t ht u hu)
    _ = (∑ t ∈ Finset.range (T1 + 1), ∑ u ∈ Finset.range (U1 + 1),
          (if t + u = d + 1 ∧ 0 < t then
            Fwd b l (t - 1) u * b (t - 1) u * Gcell b l T1 U1 t u else 0)) +
        (∑ t ∈ Finset.range (T1 + 1), ∑ u ∈ Finset.range (U1 + 1),
          (if t + u = d + 1 ∧ 0 < u then
            Fwd b l t (u - 1) * l t (u - 1) * Gcell b l T1 U1 t u else 0)) := by
        congr 1
        · exact sum_reindex_t T1 (U1 + 1) d
            (fun t u => Fwd b l t u * b t u * Gcell b l T1 U1 (t + 1) u)
            (fun t u => Fwd b l (t - 1) u * b (t - 1) u * Gcell b l T1 U1 t u)
            (fun t u ht hc => by simp only [Nat.add_sub_cancel])
        · exact sum_reindex_u (T1 + 1) U1 d
            (fun t u => Fwd b l t u * l t u * Gcell b l T1 U1 t (u + 1))
            (fun t u => Fwd b l t (u - 1) * l t (u - 1) * Gcell b l T1 U1 t u)
            (fun t u hu hc => by simp only [Nat.add_sub_cancel])
    _ = Sdiag b l T1 U1 (d + 1) := by
        rw [Sdiag, ← Finset.sum_add_distrib]
        refine (Finset.sum_congr rfl (fun t ht => ?_)).symm
        rw [← Finset.sum_add_distrib]
        exact Finset.sum_congr rfl (fun u hu => key2 t ht u hu)

theorem Sdiag_const (b l : ℕ → ℕ → ℝ) (T1 U1 : ℕ) :
    ∀ d, d ≤ T1 + U1 → Sdiag b l T1 U1 d = Sdiag b l T1 U1 0 := by
  intro d
  induction d with
  | zero => intro _; rfl
  | succ k ih =>
      intro h
      rw [← Sdiag_step b l T1 U1 k (by omega)]
      exact ih (by omega)

/-- The forward-backward duality in the exp domain: the backward sum at the
origin equals the forward sum at the terminal cell times the terminal blank
weight. -/
theorem Gcell_origin (b l : ℕ → ℕ → ℝ) (T1 U1 : ℕ) :
    Gcell b l T1 U1 0 0 = Fwd b l T1 U1 * b T1 U1 := by
  have h0 := Sdiag_zero b l T1 U1
  have h1 := Sdiag_last b l T1 U1
  have h2 := Sdiag_const b l T1 U1 (T1 + U1) le_rfl
  rw [← h0, ← h2, h1]

/-- The forward-backward duality in the log domain: beta at the origin
equals alpha at the terminal cell plus the terminal blank score, for every
lattice size and every pair of score tables. -/
theorem beta_origin_eq_alpha_terminal (bs ls : ℕ → ℕ → ℝ) (T1 U1 : ℕ) :
    beta bs ls T1 U1 0 0 = alpha bs ls T1 U1 + bs T1 U1 := by
  have h := Gcell_origin (fun a c => Real.exp (bs a c)) (fun a c => Real.exp (ls a c)) T1 U1
  refine Real.exp_eq_exp.mp ?_
  rw [beta]
  simp only [Nat.sub_zero]
  rw [Real.exp_add, exp_betaAux, exp_alpha]
  rw [Gcell] at h
  simp only [Nat.sub_zero] at h
  exact h

/-! ### Claim theorems: the cost identities -/

/-- C2: for every valid call and every example i, the cost written to
costs[i] equals minus alpha at the terminal cell minus the terminal blank
score; this value also equals minus beta at the origin; one scalar is
written per example with no reduction across the batch (cost entries beyond
the batch are untouched). -/
theorem cost_terminal_alpha_beta (c : RnntCall)
    (tg pg : Option (ℕ → ℕ → ℕ → ℝ)) (costs0 : ℕ → ℝ)
    (hv : valid_call c = true) (i : ℕ) (hi : i < c.minibatch) :
    (compute_rnnt_loss c tg pg costs0).costs i =
        -(alpha (blank_score (exampleData c i)) (label_score (exampleData c i))
            ((exampleData c i).T - 1) (exU (exampleData c i) - 1)) -
          blank_score (exampleData c i)
            ((exampleData c i).T - 1) (exU (exampleData c i) - 1) ∧
    (compute_rnnt_loss c tg pg costs0).costs i =
        -(beta (blank_score (exampleData c i)) (label_score (exampleData c i))
            ((exampleData c i).T - 1) (exU (exampleData c i) - 1) 0 0) ∧
    (∀ j, c.minibatch ≤ j → (compute_rnnt_loss c tg pg costs0).costs j = costs0 j) := by
  have hcost : (compute_rnnt_loss c tg pg costs0).costs i =
      example_cost (exampleData c i) := by
    simp [compute_rnnt_loss, hv, hi]
  refine ⟨by rw [hcost, example_cost], ?_, ?_⟩
  · rw [hcost, example_cost, beta_origin_eq_alpha_terminal]
    ring
  · intro j hj
    simp [compute_rnnt_loss, hv, Nat.not_lt.mpr hj]

/-- Witness for C2 at the demo call. -/
theorem cost_terminal_alpha_beta_witness :
    (compute_rnnt_loss demo_call none none (fun _ => 0)).costs 0 =
      -(beta (blank_score (exampleData demo_call 0)) (label_score (exampleData demo_call 0))
          ((exampleData demo_call 0).T - 1) (exU (exampleData demo_call 0) - 1) 0 0) :=
  (cost_terminal_alpha_beta demo_call none none (fun _ => 0) rfl 0 Nat.one_pos).2.1

/-- The 2 by 2 lattice with a single label: the DP cost equals the negative
log of the two-path brute-force sum, for arbitrary score tables. -/
theorem two_by_two_path_sum (bs ls : ℕ → ℕ → ℝ) :
    -(alpha bs ls 1 1) - bs 1 1 =
      -Real.log (Real.exp (ls 0 0) * Real.exp (bs 0 1) * Real.exp (bs 1 1) +
        Real.exp (bs 0 0) * Real.exp (ls 1 0) * Real.exp (bs 1 1)) := by
  have h11 := alpha_succ_succ bs ls 0 0
  have h01 := alpha_zero_succ bs ls 0
  have h10 := alpha_succ_zero bs ls 0
  rw [alpha_zero_zero, zero_add] at h01 h10
  rw [h11, h01, h10, logSumExp2]
  have hfact : Real.exp (ls 0 0) * Real.exp (bs 0 1) * Real.exp (bs 1 1) +
      Real.exp (bs 0 0) * Real.exp (ls 1 0) * Real.exp (bs 1 1) =
      (Real.exp (ls 0 0 + bs 0 1) + Real.exp (bs 0 0 + ls 1 0)) * Real.exp (bs 1 1) := by
    rw [Real.exp_add, Real.exp_add]
    ring
  rw [hfact, Real.log_mul (by positivity) (Real.exp_ne_zero _), Real.log_exp]
  ring

/-- C1: the worked scenario of spec section 8 (alphabet of size 3 with blank
0, maxT = 2, maxU = 2, one example with input_length 2 and the single label
1): for every choice of activation logits the call succeeds and the
returned loss equals the negative log of the brute-force sum, over the two
valid monotonic alignment paths of the 2 by 2 lattice, of the products of
the log-softmax-normalized transition probabilities along each path. -/
theorem worked_scenario_brute_force (ta pa : ℕ → ℕ → ℕ → ℝ) :
    (compute_rnnt_loss (scenario_call ta pa) none none (fun _ => 0)).status =
        .RNNT_STATUS_SUCCESS ∧
    (compute_rnnt_loss (scenario_call ta pa) none none (fun _ => 0)).costs 0 =
      -Real.log (scenario_path_sum (exampleData (scenario_call ta pa) 0)) := by
  have hv : valid_call (scenario_call ta pa) = true := rfl
  refine ⟨by simp [compute_rnnt_loss, hv], ?_⟩
  have hcost : (compute_rnnt_loss (scenario_call ta pa) none none (fun _ => 0)).costs 0 =
      example_cost (exampleData (scenario_call ta pa) 0) := by
    simp [compute_rnnt_loss, hv]
    norm_num [scenario_call]
  rw [hcost]
  have hT : (exampleData (scenario_call ta pa) 0).T - 1 = 1 := rfl
  have hU : exU (exampleData (scenario_call ta pa) 0) - 1 = 1 := rfl
  rw [example_cost, hT, hU, scenario_path_sum]
  exact two_by_two_path_sum _ _

end WarpRnnt
